import Mathlib

/-!
Verification of the collage-bop real-time tracking pipeline.

The development shallowly embeds the pipeline of `src/collage_tracker.py`
(class `OptimizedTracker`), together with the predictive smoother of
`scrap_bin/design_history_tracker.py` and the detector loop of
`src/design_history_tracker.py` (class `SimplifiedTracker`).

Python floats are modelled as rationals, dictionaries as association
lists over `Nat` keys (insertion-ordered, unique keys), and the bounded
`queue.Queue` instances as lists together with the push functions that
the threads actually execute.

The file is organized as definitions first, then the theorems about
them.
-/

namespace CollageBop

/-! ## Data model -/

/-- A 3-component vector of rationals (positions in detector units,
rotations in degrees). -/
structure Vec3 where
  x : ℚ
  y : ℚ
  z : ℚ

/-- The per-marker payload built by `detect_markers`: a position and a
rotation, each with three axes. -/
structure MarkerData where
  pos : Vec3
  rot : Vec3

/-- A snapshot: the Python dict mapping marker id to its data, modelled
as an insertion-ordered association list. -/
abbrev Snapshot := List (Nat × MarkerData)

/-- Dictionary lookup on an association list (first binding wins, as in a
Python dict with unique keys). -/
def alookup {α : Type} : List (Nat × α) → Nat → Option α
  | [], _ => none
  | p :: rest, i => if p.1 = i then some p.2 else alookup rest i

/-- Dictionary assignment `d[i] = v`: replace the existing binding in
place, or append a new binding (Python dicts preserve insertion order). -/
def aset {α : Type} : List (Nat × α) → Nat → α → List (Nat × α)
  | [], i, v => [(i, v)]
  | p :: rest, i, v => if p.1 = i then (i, v) :: rest else p :: aset rest i v

/-- The key list of an association list. -/
def keys {α : Type} (s : List (Nat × α)) : List Nat := s.map Prod.fst

/-- An association list with pairwise-distinct keys — the invariant every
Python dict satisfies. -/
abbrev NodupKeys {α : Type} (s : List (Nat × α)) : Prop := (keys s).Nodup

/-! ## Change gates (`src/collage_tracker.py`, lines 173-205)

`should_update_history` and `should_broadcast` are textually identical up
to their thresholds: each sums per-axis absolute deltas of position and
rotation for every marker of the candidate and fires on the first marker
that is new or has moved beyond a threshold. Both compare the candidate
`markers` against the single shared field `self.last_states`. -/

/-- Sum of absolute per-axis positional deltas, as computed by both
gates. -/
def pos_change (data last : MarkerData) : ℚ :=
  |data.pos.x - last.pos.x| + |data.pos.y - last.pos.y| + |data.pos.z - last.pos.z|

/-- Sum of absolute per-axis rotational deltas, as computed by both
gates. -/
def rot_change (data last : MarkerData) : ℚ :=
  |data.rot.x - last.rot.x| + |data.rot.y - last.rot.y| + |data.rot.z - last.rot.z|

/-- `OptimizedTracker.should_update_history` (history gate, thresholds
0.015 and 2.0). -/
def should_update_history (markers last_states : Snapshot) : Bool :=
  if markers.length ≠ last_states.length then true
  else markers.any fun p =>
    match alookup last_states p.1 with
    | none => true
    | some last =>
      decide (pos_change p.2 last > 0.015) || decide (rot_change p.2 last > 2.0)

/-- `OptimizedTracker.should_broadcast` (broadcast gate, thresholds 0.005
and 0.5). -/
def should_broadcast (markers last_states : Snapshot) : Bool :=
  if markers.length ≠ last_states.length then true
  else markers.any fun p =>
    match alookup last_states p.1 with
    | none => true
    | some last =>
      decide (pos_change p.2 last > 0.005) || decide (rot_change p.2 last > 0.5)

/-- The shared shape of the two gates, abstracted over the thresholds. -/
def change_gate (pos_threshold rot_threshold : ℚ) (markers last_states : Snapshot) : Bool :=
  if markers.length ≠ last_states.length then true
  else markers.any fun p =>
    match alookup last_states p.1 with
    | none => true
    | some last =>
      decide (pos_change p.2 last > pos_threshold) || decide (rot_change p.2 last > rot_threshold)

/-- The pass condition as the spec states it: cardinalities differ, or
some candidate entity is absent from the reference, or some common
entity moved beyond a threshold. -/
def GatePass (pos_threshold rot_threshold : ℚ) (markers last_states : Snapshot) : Prop :=
  markers.length ≠ last_states.length
  ∨ (∃ p ∈ markers, alookup last_states p.1 = none)
  ∨ (∃ id data last, alookup markers id = some data ∧ alookup last_states id = some last ∧
      (pos_change data last > pos_threshold ∨ rot_change data last > rot_threshold))

/-- A zero marker pose used to build small concrete snapshots. -/
def demo_data : MarkerData := ⟨⟨0, 0, 0⟩, ⟨0, 0, 0⟩⟩

/-- A two-marker concrete snapshot. -/
def demo_m : Snapshot := [(1, demo_data), (2, demo_data)]

/-- A one-marker concrete snapshot. -/
def demo_l : Snapshot := [(1, demo_data)]

/-! ## Capture queue (`src/collage_tracker.py`, lines 57-60 and 86-106)

`frame_queue = Queue(maxsize=2)`. Each iteration of `capture_thread`
checks `full()`, drops the oldest frame with `get_nowait` when full, and
then attempts `put_nowait`, swallowing a full-queue exception. Frames
are modelled as opaque tokens. -/

/-- One push by `capture_thread` into the capture queue. -/
def capture_push (q : List Nat) (f : Nat) : List Nat :=
  let q1 := if q.length = 2 then q.drop 1 else q
  if q1.length < 2 then q1 ++ [f] else q1

/-- N consecutive pushes with no intervening pops. -/
def capture_push_all (q : List Nat) (fs : List Nat) : List Nat :=
  fs.foldl capture_push q

/-! ## Result queue (`src/collage_tracker.py`, lines 59 and 108-129)

`result_queue = Queue(maxsize=10)`. `process_thread` publishes with
`put_nowait` inside a bare `try`/`except: pass`: when the queue already
holds 10 results the new result is silently dropped and the thread is
never blocked. -/

/-- The processing result wrapped by `process_thread`. -/
structure ProcessingResult where
  timestamp : ℚ
  markers : Snapshot
  processing_time : ℚ

/-- One `put_nowait` into the result queue with the surrounding
`except: pass`. -/
def result_put_nowait (q : List ProcessingResult) (r : ProcessingResult) :
    List ProcessingResult :=
  if q.length < 10 then q ++ [r] else q

/-- A trivial concrete processing result. -/
def demo_result : ProcessingResult := ⟨0, [], 0⟩

/-- A result queue already holding its bound of 10 results. -/
def demo_full_queue : List ProcessingResult := List.replicate 10 demo_result

/-! ## History recorder (`src/collage_tracker.py`, lines 207-233)

`update_history` iterates the union of the candidate and `last_states`
key sets, writes one entry per marker id keyed by `frame_count` into the
nested dict `design_history`, and then increments `frame_count` once per
invocation. -/

/-- The static per-marker configuration payload (opaque to the core). -/
abbrev ConfigPayload := String

/-- `self.config`: per-marker payloads plus the default payload. -/
structure TrackerConfig where
  markers : List (Nat × ConfigPayload)
  default : ConfigPayload

/-- The "pos-rot" record of a history entry. -/
structure PosRot where
  x : ℚ
  y : ℚ
  z : ℚ
  rx : ℚ
  ry : ℚ
  rz : ℚ
  s : ℚ

/-- One history entry: the marker configuration merged with the
"pos-rot" record. -/
structure HistEntry where
  config : ConfigPayload
  posrot : PosRot

/-- `design_history`: marker id to frame-index-keyed entries. -/
abbrev HistoryLog := List (Nat × List (Nat × HistEntry))

/-- `self.config['markers'].get(marker_id_str, self.config['default'])`. -/
def config_for (cfg : TrackerConfig) (id : Nat) : ConfigPayload :=
  (alookup cfg.markers id).getD cfg.default

/-- The hard-coded all-zero fallback pose of `update_history`. -/
def zero_data : MarkerData := ⟨⟨0, 0, 0⟩, ⟨0, 0, 0⟩⟩

/-- `markers.get(marker_id, self.last_states.get(marker_id, zero))`. -/
def data_for (markers last_states : Snapshot) (id : Nat) : MarkerData :=
  match alookup markers id with
  | some d => d
  | none =>
    match alookup last_states id with
    | some d => d
    | none => zero_data

/-- Build the entry written by `update_history` (scale hard-coded to
0.1). -/
def mk_hist_entry (config : ConfigPayload) (d : MarkerData) : HistEntry :=
  ⟨config, ⟨d.pos.x, d.pos.y, d.pos.z, d.rot.x, d.rot.y, d.rot.z, 0.1⟩⟩

/-- `set(markers.keys()) | set(self.last_states.keys())`. -/
def all_ids (markers last_states : Snapshot) : List Nat :=
  (keys markers ++ keys last_states).dedup

/-- `if marker_id_str not in self.design_history:
self.design_history[marker_id_str] = \x7b\x7d`. -/
def ensure_id (h : HistoryLog) (id : Nat) : HistoryLog :=
  match alookup h id with
  | some _ => h
  | none => aset h id []

/-- `self.design_history[marker_id_str][str(self.frame_count)] = entry`. -/
def hist_set (h : HistoryLog) (id fc : Nat) (e : HistEntry) : HistoryLog :=
  aset h id (aset ((alookup h id).getD []) fc e)

/-- The body of the `for marker_id in all_ids` loop for one id. -/
def record_entry (cfg : TrackerConfig) (markers last_states : Snapshot) (fc : Nat)
    (h : HistoryLog) (id : Nat) : HistoryLog :=
  hist_set (ensure_id h id) id fc
    (mk_hist_entry (config_for cfg id) (data_for markers last_states id))

/-- The mutable tracker fields touched by the orchestrator loop. -/
structure TrackerState where
  design_history : HistoryLog
  last_states : Snapshot
  frame_count : Nat

/-- `OptimizedTracker.update_history` (it does not touch
`last_states`; that field is only reassigned in the broadcast branch of
`main_loop`). -/
def update_history (cfg : TrackerConfig) (s : TrackerState) (markers : Snapshot) :
    TrackerState :=
  { design_history :=
      (all_ids markers s.last_states).foldl
        (record_entry cfg markers s.last_states s.frame_count) s.design_history
    last_states := s.last_states
    frame_count := s.frame_count + 1 }

/-- Nested lookup into the history log. -/
def hist_lookup (h : HistoryLog) (id fc : Nat) : Option HistEntry :=
  match alookup h id with
  | none => none
  | some inner => alookup inner fc

/-- All frame-index keys already written are below the counter. -/
def HistKeysBounded (h : HistoryLog) (n : Nat) : Prop :=
  ∀ id fc e, hist_lookup h id fc = some e → fc < n

/-- An empty configuration table with a default payload. -/
def demo_cfg : TrackerConfig := ⟨[], "default-config"⟩

/-- The freshly initialized tracker state. -/
def demo_state : TrackerState := ⟨[], [], 0⟩

/-! ## Orchestrator loop (`src/collage_tracker.py`, lines 291-311)

Per dequeued result, `main_loop` runs the history gate and recorder,
then the broadcast gate, and reassigns `self.last_states = markers.copy()`
only inside the broadcast branch. Both gates read the same
`self.last_states` field. -/

/-- One iteration of the `main_loop` body for a dequeued marker
snapshot; returns the new state together with the history-gate and
broadcast-gate decisions. -/
def main_loop_step (cfg : TrackerConfig) (s : TrackerState) (markers : Snapshot) :
    TrackerState × Bool × Bool :=
  let hist_pass := should_update_history markers s.last_states
  let s1 := if hist_pass then update_history cfg s markers else s
  let bc_pass := should_broadcast markers s1.last_states
  let s2 := if bc_pass then { s1 with last_states := markers } else s1
  (s2, hist_pass, bc_pass)

/-- The gate decisions produced by running the code loop over a sequence
of snapshots. -/
def code_decisions (cfg : TrackerConfig) : TrackerState → List Snapshot → List (Bool × Bool)
  | _, [] => []
  | s, m :: ms =>
    let r := main_loop_step cfg s m
    (r.2.1, r.2.2) :: code_decisions cfg r.1 ms

/-- Modelled from the spec, section 4.4: the two gates run independently
against independently maintained reference snapshots, each reference
being the last snapshot that passed that same gate. -/
structure SpecGateState where
  history_ref : Snapshot
  broadcast_ref : Snapshot

/-- Modelled from the spec, section 4.4: one cycle of the two
independently referenced gates. -/
def spec_gates_step (g : SpecGateState) (markers : Snapshot) : SpecGateState × Bool × Bool :=
  let hist_pass := should_update_history markers g.history_ref
  let bc_pass := should_broadcast markers g.broadcast_ref
  (⟨if hist_pass then markers else g.history_ref,
    if bc_pass then markers else g.broadcast_ref⟩, hist_pass, bc_pass)

/-- The gate decisions of the spec model over a sequence of snapshots. -/
def spec_decisions : SpecGateState → List Snapshot → List (Bool × Bool)
  | _, [] => []
  | g, m :: ms =>
    let r := spec_gates_step g m
    (r.2.1, r.2.2) :: spec_decisions r.1 ms

/-- A marker pose with rotation `r` degrees about the first axis. -/
def rot_data (r : ℚ) : MarkerData := ⟨⟨0, 0, 0⟩, ⟨r, 0, 0⟩⟩

/-- Reference snapshot for the divergence run. -/
def cex_ref : Snapshot := [(1, rot_data 0)]

/-- First candidate: rotated by 1 degree (passes only the broadcast
gate). -/
def cex_m1 : Snapshot := [(1, rot_data 1)]

/-- Second candidate: rotated by 3 degrees in total. -/
def cex_m2 : Snapshot := [(1, rot_data 3)]

/-- Code state whose shared reference is `cex_ref`. -/
def cex_state : TrackerState := ⟨[], cex_ref, 0⟩

/-- Spec-model state where both independent references start at
`cex_ref`. -/
def cex_spec_state : SpecGateState := ⟨cex_ref, cex_ref⟩

/-! ## Predictive smoother (`scrap_bin/design_history_tracker.py`, lines 216-262)

`predict_marker_positions` computes one wall-clock delta `dt` per call,
and for each marker present in `last_states` with `0 < dt < 0.1`
estimates an instantaneous velocity, smooths it against the stored
`marker_velocities` entry with factor `prediction_alpha = 0.3`, stores
the smoothed velocity back, and extrapolates the broadcast-facing
position by `prediction_time = 0.02` seconds. All other markers pass
through unmodified. -/

/-- The stored velocity table `self.marker_velocities`. -/
abbrev VelocityMap := List (Nat × Vec3)

/-- `self.prediction_alpha`. -/
def prediction_alpha : ℚ := 0.3

/-- The hard-coded 20 ms lookahead `prediction_time`. -/
def prediction_time : ℚ := 0.02

/-- The body of the `for marker_id, data in markers.items()` loop for
one marker: the possibly extrapolated marker data together with the
updated velocity table. -/
def predict_one (dt : ℚ) (last_states : Snapshot) (vels : VelocityMap)
    (p : Nat × MarkerData) : MarkerData × VelocityMap :=
  match alookup last_states p.1 with
  | none => (p.2, vels)
  | some last_data =>
    if 0 < dt ∧ dt < 0.1 then
      let v_instant : Vec3 :=
        ⟨(p.2.pos.x - last_data.pos.x) / dt,
         (p.2.pos.y - last_data.pos.y) / dt,
         (p.2.pos.z - last_data.pos.z) / dt⟩
      let velocity : Vec3 :=
        match alookup vels p.1 with
        | some old_vel =>
          ⟨old_vel.x * (1 - prediction_alpha) + v_instant.x * prediction_alpha,
           old_vel.y * (1 - prediction_alpha) + v_instant.y * prediction_alpha,
           old_vel.z * (1 - prediction_alpha) + v_instant.z * prediction_alpha⟩
        | none => v_instant
      ({ p.2 with pos :=
          ⟨p.2.pos.x + velocity.x * prediction_time,
           p.2.pos.y + velocity.y * prediction_time,
           p.2.pos.z + velocity.z * prediction_time⟩ },
        aset vels p.1 velocity)
    else (p.2, vels)

/-- `predict_marker_positions`: builds `predicted_markers` in iteration
order, threading the velocity table through the loop. -/
def predict_marker_positions (dt : ℚ) (last_states : Snapshot) :
    Snapshot → VelocityMap → Snapshot × VelocityMap
  | [], vels => ([], vels)
  | p :: rest, vels =>
    let r := predict_one dt last_states vels p
    let rr := predict_marker_positions dt last_states rest r.2
    ((p.1, r.1) :: rr.1, rr.2)

/-- The pose the spec promises for a predicted entity: instantaneous
velocity `(new - old) / dt` per axis, exponentially smoothed against the
stored velocity (if any) with factor 0.3, position extrapolated by the
0.02 s lookahead, rotation untouched. -/
def expected_entry (dt : ℚ) (vold : Option Vec3) (d l : MarkerData) : MarkerData :=
  let vi : Vec3 :=
    ⟨(d.pos.x - l.pos.x) / dt, (d.pos.y - l.pos.y) / dt, (d.pos.z - l.pos.z) / dt⟩
  let vs : Vec3 :=
    match vold with
    | some vo =>
      ⟨vo.x * (1 - 0.3) + vi.x * 0.3, vo.y * (1 - 0.3) + vi.y * 0.3,
       vo.z * (1 - 0.3) + vi.z * 0.3⟩
    | none => vi
  { d with pos :=
      ⟨d.pos.x + vs.x * 0.02, d.pos.y + vs.y * 0.02, d.pos.z + vs.z * 0.02⟩ }

/-! ## Broadcast dispatcher and consumer registry
(`src/collage_tracker.py`, lines 255-276)

`broadcast` serializes the payload once, iterates `self.clients`
attempting delivery, collects failing consumers in the local
`disconnected` list during the loop, and only after the loop discards
them from the set. `handle_client` adds the consumer on connect and
calls `set.remove` in its cleanup on disconnect. Consumers are tokens,
the registry a list, and a consumer transport is the predicate saying
whether `send` to it succeeds. -/

/-- The delivery loop of `broadcast`: the successful deliveries
(consumer paired with the message it received) and the `disconnected`
list, both in iteration order over the registry as it was when the loop
started. -/
def broadcast_loop (send_ok : Nat → Bool) (message : String) :
    List Nat → List (Nat × String) × List Nat
  | [] => ([], [])
  | c :: rest =>
    let r := broadcast_loop send_ok message rest
    if send_ok c then ((c, message) :: r.1, r.2) else (r.1, c :: r.2)

/-- `OptimizedTracker.broadcast`: serialize once, attempt delivery to
every registered consumer, then discard the failed ones from the
registry. -/
def broadcast (send_ok : Nat → Bool) (serialize : Nat → String) (data : Nat)
    (clients : List Nat) : List (Nat × String) × List Nat :=
  if clients = [] then ([], clients)
  else
    let message := serialize data
    let r := broadcast_loop send_ok message clients
    (r.1, r.2.foldl List.erase clients)

/-- A transport where delivery to consumer 2 always fails. -/
def demo_send_ok (c : Nat) : Bool := c != 2

/-- Python `set.remove`, as called by the `handle_client` disconnect
cleanup: raises `KeyError` when the element is absent. -/
def clients_remove (clients : List Nat) (c : Nat) : Except Unit (List Nat) :=
  if c ∈ clients then Except.ok (clients.erase c) else Except.error ()

/-- Python `set.discard`, as called by the `broadcast` cleanup: removes
the element if present and does nothing otherwise. -/
def clients_discard (clients : List Nat) (c : Nat) : List Nat := clients.erase c

/-! ## Detectors

`OptimizedTracker.detect_markers` (`src/collage_tracker.py`, lines
131-171) wraps the per-marker pose solve in `try`/`except ... continue`;
`SimplifiedTracker.detect_markers` (`src/design_history_tracker.py`,
lines 49-72) runs the same loop with no `try` at all. The external
solver is abstracted by the per-marker outcome: a pose, an unsuccessful
solve (`success` false, silently skipped by both), or a raised
exception. -/

/-- Outcome of the pose solve for one detected marker id. -/
inductive DetectOutcome where
  | ok (d : MarkerData)
  | no_solution
  | err

/-- `OptimizedTracker.detect_markers` over the detected id sequence: the
per-marker `except` clause logs and continues, so a raised exception
only skips that marker. -/
def detect_markers (solve : Nat → DetectOutcome) : List Nat → Snapshot
  | [] => []
  | id :: rest =>
    match solve id with
    | DetectOutcome.ok d => (id, d) :: detect_markers solve rest
    | DetectOutcome.no_solution => detect_markers solve rest
    | DetectOutcome.err => detect_markers solve rest

/-- `SimplifiedTracker.detect_markers`: no per-marker `try`, so a raised
exception propagates out of the whole call and every marker of the frame
is lost. -/
def simplified_detect_markers (solve : Nat → DetectOutcome) :
    List Nat → Except Unit Snapshot
  | [] => Except.ok []
  | id :: rest =>
    match solve id with
    | DetectOutcome.ok d =>
      (simplified_detect_markers solve rest).map (fun m => (id, d) :: m)
    | DetectOutcome.no_solution => simplified_detect_markers solve rest
    | DetectOutcome.err => Except.error ()

/-- A solver where marker 2 raises and every other marker succeeds. -/
def demo_solve (id : Nat) : DetectOutcome :=
  if id = 2 then DetectOutcome.err else DetectOutcome.ok demo_data

/-! ## Association list lemmas -/

theorem mem_keys_of_mem {α : Type} {s : List (Nat × α)} {i : Nat} {v : α}
    (h : (i, v) ∈ s) : i ∈ keys s :=
  List.mem_map.mpr ⟨(i, v), h, rfl⟩

theorem alookup_isSome_iff_mem_keys {α : Type} (s : List (Nat × α)) (i : Nat) :
    (alookup s i).isSome ↔ i ∈ keys s := by
  induction s with
  | nil => simp [alookup, keys]
  | cons p rest ih =>
    by_cases h : p.1 = i
    · simp [alookup, keys, h]
    · have h2 : ¬i = p.1 := fun hc => h hc.symm
      simp [alookup, keys, h, h2, ih]

theorem mem_of_alookup_eq_some {α : Type} {s : List (Nat × α)} {i : Nat} {v : α}
    (h : alookup s i = some v) : (i, v) ∈ s := by
  induction s with
  | nil => simp [alookup] at h
  | cons p rest ih =>
    by_cases hp : p.1 = i
    · simp only [alookup, hp, if_pos] at h
      obtain ⟨i', v'⟩ := p
      cases hp
      cases h
      exact List.mem_cons_self _ _
    · simp only [alookup, hp, if_neg, if_false] at h
      exact List.mem_cons_of_mem _ (ih h)

theorem alookup_eq_some_of_mem {α : Type} {s : List (Nat × α)} {i : Nat} {v : α}
    (hs : NodupKeys s) (h : (i, v) ∈ s) : alookup s i = some v := by
  induction s with
  | nil => cases h
  | cons p rest ih =>
    rcases List.mem_cons.mp h with heq | hmem
    · cases heq
      simp [alookup]
    · have hne : p.1 ≠ i := by
        intro hcontra
        have : p.1 ∈ keys rest := hcontra ▸ mem_keys_of_mem hmem
        exact (List.nodup_cons.mp hs).1 this
      have hs' : NodupKeys rest := (List.nodup_cons.mp hs).2
      simp [alookup, hne, ih hs' hmem]

theorem alookup_aset_self {α : Type} (s : List (Nat × α)) (i : Nat) (v : α) :
    alookup (aset s i v) i = some v := by
  induction s with
  | nil => simp [aset, alookup]
  | cons p rest ih =>
    by_cases h : p.1 = i
    · simp [aset, alookup, h]
    · simp [aset, alookup, h, ih]

theorem alookup_aset_ne {α : Type} (s : List (Nat × α)) {i j : Nat} (v : α)
    (h : i ≠ j) : alookup (aset s j v) i = alookup s i := by
  have hji : ¬j = i := fun hc => h hc.symm
  induction s with
  | nil => simp [aset, alookup, hji]
  | cons p rest ih =>
    by_cases hp : p.1 = j
    · simp [aset, alookup, hp, hji]
    · simp [aset, alookup, hp, ih]

/-! ## Change gate theorems -/

theorem should_update_history_eq_gate (markers last_states : Snapshot) :
    should_update_history markers last_states = change_gate 0.015 2.0 markers last_states := rfl

theorem should_broadcast_eq_gate (markers last_states : Snapshot) :
    should_broadcast markers last_states = change_gate 0.005 0.5 markers last_states := rfl

theorem change_gate_eq_true_iff (pt rt : ℚ) (markers last_states : Snapshot)
    (hm : NodupKeys markers) :
    change_gate pt rt markers last_states = true ↔ GatePass pt rt markers last_states := by
  by_cases hlen : markers.length = last_states.length
  · rw [change_gate, if_neg (by simp [hlen]), List.any_eq_true]
    constructor
    · rintro ⟨p, hp, hfp⟩
      cases hl : alookup last_states p.1 with
      | none => exact Or.inr (Or.inl ⟨p, hp, hl⟩)
      | some last =>
        rw [hl] at hfp
        simp only [Bool.or_eq_true, decide_eq_true_eq] at hfp
        exact Or.inr (Or.inr ⟨p.1, p.2, last, alookup_eq_some_of_mem hm hp, hl, hfp⟩)
    · rintro (h | ⟨p, hp, hnone⟩ | ⟨id, data, last, hmk, hlk, hgt⟩)
      · exact absurd hlen h
      · exact ⟨p, hp, by simp [hnone]⟩
      · refine ⟨(id, data), mem_of_alookup_eq_some hmk, ?_⟩
        simp only [hlk, Bool.or_eq_true, decide_eq_true_eq]
        exact hgt
  · rw [change_gate, if_pos (by simp [hlen])]
    simp only [true_iff]
    exact Or.inl hlen

theorem pos_change_self (d : MarkerData) : pos_change d d = 0 := by
  simp [pos_change]

theorem rot_change_self (d : MarkerData) : rot_change d d = 0 := by
  simp [rot_change]

theorem change_gate_self_eq_false (pt rt : ℚ) (markers : Snapshot)
    (hm : NodupKeys markers) (hpt : 0 ≤ pt) (hrt : 0 ≤ rt) :
    change_gate pt rt markers markers = false := by
  rw [change_gate, if_neg (by simp)]
  rw [List.any_eq_false]
  intro p hp
  simp only [alookup_eq_some_of_mem hm hp, Bool.or_eq_true, decide_eq_true_eq, gt_iff_lt,
    pos_change_self, rot_change_self]
  rintro (hlt | hlt)
  · exact absurd hlt (not_lt.mpr hpt)
  · exact absurd hlt (not_lt.mpr hrt)

/-- C1: For every candidate snapshot and reference snapshot given to a
change gate, the gate passes if and only if the entity-set cardinalities
differ, or some candidate entity is absent from the reference, or some
common entity has a positional or rotational delta sum beyond the
thresholds of that gate; in particular a candidate identical to its
reference is suppressed. -/
theorem change_gate_pass_iff (markers last_states : Snapshot) (hm : NodupKeys markers) :
    (should_update_history markers last_states = true ↔ GatePass 0.015 2.0 markers last_states)
    ∧ (should_broadcast markers last_states = true ↔ GatePass 0.005 0.5 markers last_states)
    ∧ should_update_history markers markers = false
    ∧ should_broadcast markers markers = false := by
  refine ⟨?_, ?_, ?_, ?_⟩
  · rw [should_update_history_eq_gate]
    exact change_gate_eq_true_iff _ _ _ _ hm
  · rw [should_broadcast_eq_gate]
    exact change_gate_eq_true_iff _ _ _ _ hm
  · rw [should_update_history_eq_gate]
    exact change_gate_self_eq_false _ _ _ hm (by norm_num) (by norm_num)
  · rw [should_broadcast_eq_gate]
    exact change_gate_self_eq_false _ _ _ hm (by norm_num) (by norm_num)

/-- C1 witness: the gate characterization applied to concrete
snapshots. -/
theorem change_gate_pass_iff_witness :
    NodupKeys demo_m
    ∧ ((should_update_history demo_m demo_l = true ↔ GatePass 0.015 2.0 demo_m demo_l)
        ∧ (should_broadcast demo_m demo_l = true ↔ GatePass 0.005 0.5 demo_m demo_l)
        ∧ should_update_history demo_m demo_m = false
        ∧ should_broadcast demo_m demo_m = false) :=
  ⟨by decide, change_gate_pass_iff demo_m demo_l (by decide)⟩

/-! ## Capture queue theorems -/

theorem capture_push_all_nil (q : List Nat) : capture_push_all q [] = q := rfl

theorem capture_push_all_cons (q : List Nat) (f : Nat) (fs : List Nat) :
    capture_push_all q (f :: fs) = capture_push_all (capture_push q f) fs := rfl

theorem capture_push_all_eq (fs : List Nat) : ∀ q : List Nat, q.length ≤ 2 →
    capture_push_all q fs = (q ++ fs).drop (q.length + fs.length - 2) := by
  induction fs with
  | nil =>
    intro q hq
    have h0 : q.length - 2 = 0 := by omega
    simp [capture_push_all_nil, h0]
  | cons f fs ih =>
    intro q hq
    rw [capture_push_all_cons]
    rcases q with _ | ⟨a, _ | ⟨b, _ | ⟨c, rest⟩⟩⟩
    · rw [show capture_push [] f = [f] from rfl, ih [f] (by simp)]
      simp only [List.singleton_append, List.nil_append, List.length_cons, List.length_nil]
      congr 1
      omega
    · rw [show capture_push [a] f = [a, f] from rfl, ih [a, f] (by simp)]
      simp only [List.cons_append, List.singleton_append, List.nil_append, List.length_cons,
        List.length_nil]
      congr 1
      omega
    · rw [show capture_push [a, b] f = [b, f] from rfl, ih [b, f] (by simp)]
      simp only [List.cons_append, List.singleton_append, List.nil_append, List.length_cons,
        List.length_nil]
      have h1 : (2 : Nat) + (fs.length + 1) - 2 = (1 + (fs.length + 1) - 2) + 1 := by omega
      rw [h1, List.drop_succ_cons]
      congr 1
      omega
    · simp only [List.length_cons] at hq
      omega

/-- C3 counterexample: after two consecutive pushes into the empty
capture queue, the queue holds both pushed frames — two unconsumed
frames, not one. -/
theorem capture_queue_counterexample :
    capture_push_all [] [1, 2] = [1, 2] ∧ (capture_push_all [] [1, 2]).length = 2 := by
  constructor <;> rfl

/-- C3 (amended): the capture queue holds at most two unconsumed frames
at every instant; after N consecutive pushes with no intervening pops it
holds exactly the most recent two pushed frames (the single pushed frame
when N = 1), so every older evicted frame is gone from the queue and is
never delivered. -/
theorem capture_queue_two_slot (q fs : List Nat) (hq : q.length ≤ 2) :
    (capture_push_all q fs).length ≤ 2
    ∧ capture_push_all [] fs = fs.drop (fs.length - 2) := by
  constructor
  · rw [capture_push_all_eq fs q hq]
    simp only [List.length_drop, List.length_append]
    omega
  · rw [capture_push_all_eq fs [] (by simp)]
    simp

/-- C3 witness: the bound and the last-two characterization evaluated on
three concrete pushes. -/
theorem capture_queue_two_slot_witness :
    ([] : List Nat).length ≤ 2
    ∧ ((capture_push_all [] [10, 20, 30]).length ≤ 2
        ∧ capture_push_all [] [10, 20, 30] = [10, 20, 30].drop ([10, 20, 30].length - 2)) :=
  ⟨by decide, capture_queue_two_slot [] [10, 20, 30] (by decide)⟩

/-! ## Result queue theorems -/

theorem result_fold_le (rs : List ProcessingResult) : ∀ q : List ProcessingResult,
    q.length ≤ 10 → (rs.foldl result_put_nowait q).length ≤ 10 := by
  induction rs with
  | nil => exact fun q hq => hq
  | cons r rs ih =>
    intro q hq
    rw [List.foldl_cons]
    apply ih
    unfold result_put_nowait
    split
    · simp only [List.length_append, List.length_cons, List.length_nil]
      omega
    · exact hq

/-- C4: the result queue never exceeds its bound of 10 results; a push
attempted on a full queue leaves the contents unchanged and silently
drops the new result (the push is a total function: it neither raises
nor blocks), and any sequence of pushes preserves the bound. -/
theorem result_queue_bound (q : List ProcessingResult) (r : ProcessingResult)
    (rs : List ProcessingResult) (hq : q.length ≤ 10) :
    (result_put_nowait q r).length ≤ 10
    ∧ (q.length = 10 → result_put_nowait q r = q)
    ∧ (rs.foldl result_put_nowait q).length ≤ 10 := by
  refine ⟨?_, ?_, result_fold_le rs q hq⟩
  · unfold result_put_nowait
    split
    · simp only [List.length_append, List.length_cons, List.length_nil]
      omega
    · exact hq
  · intro h10
    unfold result_put_nowait
    rw [if_neg (by omega)]

/-- C4 witness: pushing onto the concrete full queue is a no-op. -/
theorem result_queue_bound_witness :
    demo_full_queue.length ≤ 10
    ∧ demo_full_queue.length = 10
    ∧ result_put_nowait demo_full_queue demo_result = demo_full_queue :=
  ⟨by decide, by decide,
    (result_queue_bound demo_full_queue demo_result [] (by decide)).2.1 (by decide)⟩

/-! ## History recorder theorems -/

theorem hist_lookup_ensure_id (h : HistoryLog) (id id' fc' : Nat) :
    hist_lookup (ensure_id h id) id' fc' = hist_lookup h id' fc' := by
  unfold ensure_id
  cases hh : alookup h id with
  | some inner => rfl
  | none =>
    unfold hist_lookup
    by_cases hid : id' = id
    · subst hid
      rw [alookup_aset_self, hh]
      rfl
    · rw [alookup_aset_ne h [] hid]

theorem hist_lookup_hist_set_self (h : HistoryLog) (id fc : Nat) (e : HistEntry) :
    hist_lookup (hist_set h id fc e) id fc = some e := by
  unfold hist_lookup hist_set
  rw [alookup_aset_self]
  exact alookup_aset_self _ _ _

theorem hist_lookup_hist_set_ne (h : HistoryLog) (id fc : Nat) (e : HistEntry)
    (id' fc' : Nat) (hne : id' ≠ id ∨ fc' ≠ fc) :
    hist_lookup (hist_set h id fc e) id' fc' = hist_lookup h id' fc' := by
  unfold hist_lookup hist_set
  by_cases hid : id' = id
  · subst hid
    have hfc : fc' ≠ fc := by
      rcases hne with hc | hc
      · exact absurd rfl hc
      · exact hc
    simp only [alookup_aset_self]
    rw [alookup_aset_ne _ _ hfc]
    cases hh : alookup h id' with
    | none => rfl
    | some inner => rfl
  · rw [alookup_aset_ne _ _ hid]

theorem hist_lookup_record_entry_ne (cfg : TrackerConfig) (m ls : Snapshot) (fc : Nat)
    (h : HistoryLog) (id id' fc' : Nat) (hne : id' ≠ id ∨ fc' ≠ fc) :
    hist_lookup (record_entry cfg m ls fc h id) id' fc' = hist_lookup h id' fc' := by
  unfold record_entry
  rw [hist_lookup_hist_set_ne _ _ _ _ _ _ hne, hist_lookup_ensure_id]

theorem hist_lookup_fold_ne (cfg : TrackerConfig) (m ls : Snapshot) (fc : Nat)
    (ids : List Nat) : ∀ (h : HistoryLog) (id' fc' : Nat), fc' ≠ fc →
    hist_lookup (ids.foldl (record_entry cfg m ls fc) h) id' fc' = hist_lookup h id' fc' := by
  induction ids with
  | nil => intro h id' fc' _; rfl
  | cons i ids ih =>
    intro h id' fc' hne
    rw [List.foldl_cons, ih _ id' fc' hne,
      hist_lookup_record_entry_ne _ _ _ _ _ _ _ _ (Or.inr hne)]

theorem hist_lookup_fold_not_mem (cfg : TrackerConfig) (m ls : Snapshot) (fc : Nat)
    (ids : List Nat) : ∀ (h : HistoryLog) (id fc' : Nat), id ∉ ids →
    hist_lookup (ids.foldl (record_entry cfg m ls fc) h) id fc' = hist_lookup h id fc' := by
  induction ids with
  | nil => intro h id fc' _; rfl
  | cons i ids ih =>
    intro h id fc' hnm
    have hid : id ≠ i := fun hc => hnm (hc ▸ List.mem_cons_self i ids)
    have hrest : id ∉ ids := fun hc => hnm (List.mem_cons_of_mem i hc)
    rw [List.foldl_cons, ih _ id fc' hrest,
      hist_lookup_record_entry_ne _ _ _ _ _ _ _ _ (Or.inl hid)]

theorem hist_lookup_fold_self (cfg : TrackerConfig) (m ls : Snapshot) (fc : Nat)
    (ids : List Nat) : ∀ (h : HistoryLog) (id : Nat), ids.Nodup → id ∈ ids →
    hist_lookup (ids.foldl (record_entry cfg m ls fc) h) id fc =
      some (mk_hist_entry (config_for cfg id) (data_for m ls id)) := by
  induction ids with
  | nil => intro h id _ hmem; cases hmem
  | cons i ids ih =>
    intro h id hnd hmem
    rcases List.mem_cons.mp hmem with heq | hmem'
    · subst heq
      have hnm : id ∉ ids := (List.nodup_cons.mp hnd).1
      rw [List.foldl_cons, hist_lookup_fold_not_mem cfg m ls fc ids _ id fc hnm]
      unfold record_entry
      exact hist_lookup_hist_set_self _ _ _ _
    · rw [List.foldl_cons]
      exact ih _ id (List.nodup_cons.mp hnd).2 hmem'

/-- C7: the history log is append-only across Recorder invocations:
every entry present before an `update_history` call is present and
unchanged after it, the call only writes entries keyed by the current
frame counter, the counter advances by exactly one per invocation, and
the key-bound invariant that makes this hold for any sequence of
invocations is preserved. -/
theorem update_history_append_only (cfg : TrackerConfig) (s : TrackerState)
    (markers : Snapshot) (hb : HistKeysBounded s.design_history s.frame_count) :
    (update_history cfg s markers).frame_count = s.frame_count + 1
    ∧ (∀ id fc, fc ≠ s.frame_count →
        hist_lookup (update_history cfg s markers).design_history id fc =
          hist_lookup s.design_history id fc)
    ∧ (∀ id fc e, hist_lookup s.design_history id fc = some e →
        hist_lookup (update_history cfg s markers).design_history id fc = some e)
    ∧ HistKeysBounded (update_history cfg s markers).design_history
        (update_history cfg s markers).frame_count := by
  have hfold : ∀ id fc, fc ≠ s.frame_count →
      hist_lookup (update_history cfg s markers).design_history id fc =
        hist_lookup s.design_history id fc := by
    intro id fc hne
    exact hist_lookup_fold_ne cfg markers s.last_states s.frame_count _ _ id fc hne
  refine ⟨rfl, hfold, ?_, ?_⟩
  · intro id fc e he
    have hlt : fc < s.frame_count := hb id fc e he
    rw [hfold id fc (Nat.ne_of_lt hlt)]
    exact he
  · intro id fc e he
    show fc < s.frame_count + 1
    by_cases hfc : fc = s.frame_count
    · omega
    · rw [hfold id fc hfc] at he
      have hlt : fc < s.frame_count := hb id fc e he
      omega

/-- C7 witness: one concrete Recorder invocation from the initial state
advances the frame counter by one. -/
theorem update_history_append_only_witness :
    (update_history demo_cfg demo_state demo_m).frame_count = demo_state.frame_count + 1 :=
  (update_history_append_only demo_cfg demo_state demo_m
    (fun _ _ _ h => Option.noConfusion h)).1

/-- C10: for every id in the iterated union of candidate and last-known
key sets, the pose written comes from the candidate snapshot or, failing
that, from the last-known state — the all-zero fallback branch of
`data_for` is never taken — and the entry recorded in the log for that
id at the current frame counter is built from exactly that pose. -/
theorem update_history_default_unreachable (cfg : TrackerConfig) (s : TrackerState)
    (markers : Snapshot) (id : Nat) (hid : id ∈ all_ids markers s.last_states) :
    ((∃ d, alookup markers id = some d ∧ data_for markers s.last_states id = d)
      ∨ (alookup markers id = none
          ∧ ∃ d, alookup s.last_states id = some d ∧ data_for markers s.last_states id = d))
    ∧ hist_lookup (update_history cfg s markers).design_history id s.frame_count =
        some (mk_hist_entry (config_for cfg id) (data_for markers s.last_states id)) := by
  constructor
  · have hmem : id ∈ keys markers ∨ id ∈ keys s.last_states := by
      have := List.mem_dedup.mp hid
      exact List.mem_append.mp this
    cases hm : alookup markers id with
    | some d => exact Or.inl ⟨d, rfl, by simp [data_for, hm]⟩
    | none =>
      refine Or.inr ⟨rfl, ?_⟩
      have hks : id ∈ keys s.last_states := by
        rcases hmem with hk | hk
        · have : (alookup markers id).isSome := (alookup_isSome_iff_mem_keys _ _).mpr hk
          rw [hm] at this
          cases this
        · exact hk
      have hsome : (alookup s.last_states id).isSome :=
        (alookup_isSome_iff_mem_keys _ _).mpr hks
      cases hl : alookup s.last_states id with
      | none => rw [hl] at hsome; cases hsome
      | some d => exact ⟨d, rfl, by simp [data_for, hm, hl]⟩
  · exact hist_lookup_fold_self cfg markers s.last_states s.frame_count _ _ id
      (List.nodup_dedup _) hid

/-- C10 witness: the characterization applied with one visible marker
and empty last-known state. -/
theorem update_history_default_unreachable_witness :
    1 ∈ all_ids demo_l demo_state.last_states
    ∧ hist_lookup (update_history demo_cfg demo_state demo_l).design_history 1
        demo_state.frame_count =
      some (mk_hist_entry (config_for demo_cfg 1) (data_for demo_l demo_state.last_states 1)) :=
  ⟨by decide,
    (update_history_default_unreachable demo_cfg demo_state demo_l 1 (by decide)).2⟩

/-! ## Orchestrator loop theorems -/

/-- C2 counterexample: on the run `cex_m1, cex_m2` the code loop never
passes the history gate — after the broadcast pass on `cex_m1`
reassigned the shared `last_states`, the history gate compares `cex_m2`
to `cex_m1` (delta 2, not above 2.0) — whereas gates with independently
maintained references, as the claim states, pass the history gate on
`cex_m2` (delta 3 from `cex_ref`). A pass of the broadcast gate did
alter the reference the history gate uses. -/
theorem gate_reference_counterexample :
    code_decisions demo_cfg cex_state [cex_m1, cex_m2] = [(false, true), (false, true)]
    ∧ spec_decisions cex_spec_state [cex_m1, cex_m2] = [(false, true), (true, true)] := by
  constructor
  · norm_num [code_decisions, main_loop_step, should_update_history, should_broadcast,
      cex_state, cex_ref, cex_m1, cex_m2, rot_data, alookup, pos_change, rot_change,
      List.any_cons, List.any_nil]
  · norm_num [spec_decisions, spec_gates_step, should_update_history, should_broadcast,
      cex_spec_state, cex_ref, cex_m1, cex_m2, rot_data, alookup, pos_change, rot_change,
      List.any_cons, List.any_nil]

theorem change_gate_mono (pt pt' rt rt' : ℚ) (m l : Snapshot) (hpt : pt' ≤ pt)
    (hrt : rt' ≤ rt) (h : change_gate pt rt m l = true) :
    change_gate pt' rt' m l = true := by
  unfold change_gate at h ⊢
  by_cases hlen : m.length ≠ l.length
  · rw [if_pos hlen]
  · rw [if_neg hlen] at h ⊢
    obtain ⟨p, hp, hfp⟩ := List.any_eq_true.mp h
    refine List.any_eq_true.mpr ⟨p, hp, ?_⟩
    cases hl : alookup l p.1 with
    | none => rfl
    | some last =>
      rw [hl] at hfp
      simp only [Bool.or_eq_true, decide_eq_true_eq, gt_iff_lt] at hfp ⊢
      rcases hfp with hlt | hlt
      · exact Or.inl (lt_of_le_of_lt hpt hlt)
      · exact Or.inr (lt_of_le_of_lt hrt hlt)

/-- C2 (amended): both gates compare the candidate against the single
shared reference `last_states`; the loop reassigns that reference
exactly when the broadcast gate passes, so a broadcast pass changes the
reference the history gate uses on the next cycle; and because the
broadcast thresholds are strictly tighter, a history-gate pass implies a
broadcast-gate pass on the same cycle. -/
theorem gates_shared_reference (cfg : TrackerConfig) (s : TrackerState) (markers : Snapshot) :
    (main_loop_step cfg s markers).2.1 = should_update_history markers s.last_states
    ∧ (main_loop_step cfg s markers).2.2 = should_broadcast markers s.last_states
    ∧ (main_loop_step cfg s markers).1.last_states =
        (if should_broadcast markers s.last_states then markers else s.last_states)
    ∧ (should_update_history markers s.last_states = true →
        should_broadcast markers s.last_states = true) := by
  refine ⟨rfl, ?_, ?_, ?_⟩
  · by_cases hh : should_update_history markers s.last_states = true <;>
      simp [main_loop_step, update_history, hh]
  · by_cases hh : should_update_history markers s.last_states = true <;>
      by_cases hb : should_broadcast markers s.last_states = true <;>
        simp [main_loop_step, update_history, hh, hb]
  · intro h
    rw [should_broadcast_eq_gate]
    rw [should_update_history_eq_gate] at h
    exact change_gate_mono 0.015 0.005 2.0 0.5 markers s.last_states (by norm_num)
      (by norm_num) h

/-- C2 amended-claim witness: on concrete snapshots of different
cardinality the history gate passes, and through the theorem so does the
broadcast gate. -/
theorem gates_shared_reference_witness :
    should_update_history demo_m demo_l = true
    ∧ should_broadcast demo_m demo_l = true :=
  ⟨rfl, (gates_shared_reference demo_cfg ⟨[], demo_l, 0⟩ demo_m).2.2.2 rfl⟩

/-! ## Predictive smoother theorems -/

theorem predict_one_vels_ne (dt : ℚ) (last_states : Snapshot) (vels : VelocityMap)
    (p : Nat × MarkerData) (j : Nat) (hj : j ≠ p.1) :
    alookup (predict_one dt last_states vels p).2 j = alookup vels j := by
  cases hls : alookup last_states p.1 with
  | none => simp [predict_one, hls]
  | some last_data =>
    by_cases hdt : 0 < dt ∧ dt < 0.1
    · simp only [predict_one, hls, if_pos hdt]
      exact alookup_aset_ne vels _ hj
    · simp only [predict_one, hls, if_neg hdt]

theorem predict_one_fst (dt : ℚ) (last_states : Snapshot) (vels : VelocityMap)
    (id : Nat) (d l : MarkerData) (hl : alookup last_states id = some l)
    (h1 : 0 < dt) (h2 : dt < 0.1) :
    (predict_one dt last_states vels (id, d)).1 = expected_entry dt (alookup vels id) d l := by
  unfold predict_one expected_entry
  rw [hl]
  simp only [if_pos (And.intro h1 h2)]
  cases alookup vels id with
  | none => rfl
  | some vo => rfl

theorem predict_one_fst_no_prior (dt : ℚ) (last_states : Snapshot) (vels : VelocityMap)
    (id : Nat) (d : MarkerData) (hl : alookup last_states id = none) :
    (predict_one dt last_states vels (id, d)).1 = d := by
  unfold predict_one
  rw [hl]

theorem predict_one_fst_bad_dt (dt : ℚ) (last_states : Snapshot) (vels : VelocityMap)
    (id : Nat) (d : MarkerData) (hdt : ¬(0 < dt ∧ dt < 0.1)) :
    (predict_one dt last_states vels (id, d)).1 = d := by
  cases hls : alookup last_states id with
  | none => simp [predict_one, hls]
  | some last_data => simp only [predict_one, hls, if_neg hdt]

theorem predict_one_fst_congr (dt : ℚ) (ls : Snapshot) (vels1 vels : VelocityMap)
    (id : Nat) (d : MarkerData) (h : alookup vels1 id = alookup vels id) :
    (predict_one dt ls vels1 (id, d)).1 = (predict_one dt ls vels (id, d)).1 := by
  cases hls : alookup ls id with
  | none => simp [predict_one, hls]
  | some last_data =>
    by_cases hdt : 0 < dt ∧ dt < 0.1
    · simp only [predict_one, hls, if_pos hdt, h]
    · simp only [predict_one, hls, if_neg hdt]

theorem predict_lookup (dt : ℚ) (last_states : Snapshot) (markers : Snapshot) :
    ∀ (vels : VelocityMap) (id : Nat) (d : MarkerData), NodupKeys markers →
      (id, d) ∈ markers →
      alookup (predict_marker_positions dt last_states markers vels).1 id =
        some (predict_one dt last_states vels (id, d)).1 := by
  induction markers with
  | nil => intro vels id d _ hmem; cases hmem
  | cons p rest ih =>
    intro vels id d hnd hmem
    rcases List.mem_cons.mp hmem with heq | hmem'
    · subst heq
      simp [predict_marker_positions, alookup]
    · have hne : p.1 ≠ id := by
        intro hc
        exact (List.nodup_cons.mp hnd).1 (hc ▸ mem_keys_of_mem hmem')
      have hni : id ≠ p.1 := fun hc => hne hc.symm
      simp only [predict_marker_positions, alookup]
      rw [if_neg hne]
      rw [ih (predict_one dt last_states vels p).2 id d (List.nodup_cons.mp hnd).2 hmem']
      exact congrArg some (predict_one_fst_congr dt last_states _ vels id d
        (predict_one_vels_ne dt last_states vels p id hni))

/-- C5: for every entity present in both the current and previous raw
snapshots and a call delta `dt` with `0 < dt < 0.1`, the broadcast-facing
entry equals the raw data with each position axis advanced by
`v_smoothed * 0.02`, where `v_instant = (new - old) / dt`, and
`v_smoothed` blends the stored velocity with factor `alpha = 0.3` (and is
`v_instant` when no velocity is stored); an entity with no prior sample,
or a `dt` outside that range, passes through with its raw pose. -/
theorem predictive_smoother_spec (dt : ℚ) (markers last_states : Snapshot)
    (vels : VelocityMap) (id : Nat) (d : MarkerData)
    (hm : NodupKeys markers) (hmem : (id, d) ∈ markers) :
    (∀ l, alookup last_states id = some l → 0 < dt → dt < 0.1 →
      alookup (predict_marker_positions dt last_states markers vels).1 id =
        some (expected_entry dt (alookup vels id) d l))
    ∧ (alookup last_states id = none →
        alookup (predict_marker_positions dt last_states markers vels).1 id = some d)
    ∧ (¬(0 < dt ∧ dt < 0.1) →
        alookup (predict_marker_positions dt last_states markers vels).1 id = some d) := by
  refine ⟨?_, ?_, ?_⟩
  · intro l hl h1 h2
    rw [predict_lookup dt last_states markers vels id d hm hmem,
      predict_one_fst dt last_states vels id d l hl h1 h2]
  · intro hl
    rw [predict_lookup dt last_states markers vels id d hm hmem,
      predict_one_fst_no_prior dt last_states vels id d hl]
  · intro hdt
    rw [predict_lookup dt last_states markers vels id d hm hmem,
      predict_one_fst_bad_dt dt last_states vels id d hdt]

/-- C5 witness: a marker with no prior sample passes through with its
raw pose. -/
theorem predictive_smoother_spec_witness :
    alookup (predict_marker_positions 1 [] [(1, demo_data)] []).1 1 = some demo_data :=
  (predictive_smoother_spec 1 [(1, demo_data)] [] [] 1 demo_data (by decide)
    (List.mem_singleton.mpr rfl)).2.1 rfl

/-! ## Broadcast dispatcher theorems -/

/-- C6: with consumers 1, 2, 3 registered and delivery to consumer 2
failing, the cycle still delivers the one serialized payload to
consumers 1 and 3; the iterated registry is the registry at the start of
the cycle and the loop itself only marks the failure (consumer 2 is the
sole entry of the post-iteration removal list), and the registry after
the cycle no longer contains consumer 2. -/
theorem broadcast_failure_isolation (serialize : Nat → String) (data : Nat) :
    broadcast demo_send_ok serialize data [1, 2, 3]
      = ([(1, serialize data), (3, serialize data)], [1, 3])
    ∧ (broadcast_loop demo_send_ok (serialize data) [1, 2, 3]).2 = [2] := by
  constructor
  · rfl
  · rfl

/-- C9 (code bug): after the dispatcher has discarded consumer 2 on its
delivery failure, the disconnect cleanup of `handle_client` calls
`set.remove` on a registry that no longer contains it, which raises
`KeyError` instead of leaving the registry unchanged; the `discard` used
by the dispatcher, by contrast, is idempotent as the spec requires of
removal. -/
theorem handle_client_remove_raises :
    clients_remove (broadcast demo_send_ok (fun _ => "payload") 0 [1, 2, 3]).2 2
      = Except.error ()
    ∧ clients_discard (clients_discard [1, 2, 3] 2) 2 = clients_discard [1, 2, 3] 2 := by
  constructor
  · rfl
  · rfl

/-! ## Detector theorems -/

/-- C8 counterexample: in the `SimplifiedTracker` detector cited by the
claim, the exception raised while processing marker 2 aborts the whole
call — no entity map is returned at all, so markers 1 and 3 are lost
with it. -/
theorem detector_abort_counterexample :
    simplified_detect_markers demo_solve [1, 2, 3] = Except.error () := rfl

/-- C8 (amended): in the `OptimizedTracker` detector, per-entity
failures are isolated: for pairwise-distinct detected ids, a marker is
in the returned map exactly when its own pose solve succeeded, so the
marker whose processing raised is skipped (and logged) while every
other successfully processed marker is present. -/
theorem detect_markers_isolates_failures (solve : Nat → DetectOutcome) (ids : List Nat)
    (id : Nat) (d : MarkerData) : ids.Nodup →
    (alookup (detect_markers solve ids) id = some d
      ↔ id ∈ ids ∧ solve id = DetectOutcome.ok d) := by
  induction ids with
  | nil =>
    intro _
    simp [detect_markers, alookup]
  | cons i rest ih =>
    intro hnd
    have ihr := ih (List.nodup_cons.mp hnd).2
    cases hs : solve i with
    | ok d0 =>
      by_cases hid : i = id
      · subst hid
        rw [show detect_markers solve (i :: rest) = (i, d0) :: detect_markers solve rest from
          by rw [detect_markers, hs]]
        rw [show alookup ((i, d0) :: detect_markers solve rest) i = some d0 from
          by rw [alookup, if_pos rfl]]
        constructor
        · intro he
          injection he with hd
          subst hd
          exact ⟨List.mem_cons_self _ _, hs⟩
        · rintro ⟨_, hsolve⟩
          rw [hs] at hsolve
          injection hsolve with hd
          rw [hd]
      · simp only [detect_markers, hs, alookup, if_neg hid]
        rw [ihr]
        constructor
        · rintro ⟨hmem, hsv⟩
          exact ⟨List.mem_cons_of_mem _ hmem, hsv⟩
        · rintro ⟨hmem, hsv⟩
          rcases List.mem_cons.mp hmem with heq | hmem'
          · exact absurd heq.symm hid
          · exact ⟨hmem', hsv⟩
    | no_solution =>
      simp only [detect_markers, hs]
      rw [ihr]
      constructor
      · rintro ⟨hmem, hsv⟩
        exact ⟨List.mem_cons_of_mem _ hmem, hsv⟩
      · rintro ⟨hmem, hsv⟩
        rcases List.mem_cons.mp hmem with heq | hmem'
        · subst heq
          rw [hs] at hsv
          cases hsv
        · exact ⟨hmem', hsv⟩
    | err =>
      simp only [detect_markers, hs]
      rw [ihr]
      constructor
      · rintro ⟨hmem, hsv⟩
        exact ⟨List.mem_cons_of_mem _ hmem, hsv⟩
      · rintro ⟨hmem, hsv⟩
        rcases List.mem_cons.mp hmem with heq | hmem'
        · subst heq
          rw [hs] at hsv
          cases hsv
        · exact ⟨hmem', hsv⟩

/-- C8 witness: with marker 2 raising, marker 3 is still present in the
returned map of the `OptimizedTracker` detector. -/
theorem detect_markers_isolates_failures_witness :
    [1, 2, 3].Nodup ∧ alookup (detect_markers demo_solve [1, 2, 3]) 3 = some demo_data :=
  ⟨by decide,
    (detect_markers_isolates_failures demo_solve [1, 2, 3] 3 demo_data (by decide)).mpr
      ⟨by decide, rfl⟩⟩

end CollageBop
